import Mathlib

/-!
Verification of the incremental graph-state synchronization logic of the
bible-graph front-end.

The definitions below are a shallow embedding of the graph component
(src/unnamed/part_002, the most complete variant of the component, whose
functions are byte-identical to the corresponding ones in
src/app/components/BibleGraph.tsx except where noted) and of the API client
(src/app/api/bibleApi.ts).

Modelling conventions:
* JavaScript strings are Lean String values; the default Array.sort
  comparator on two strings (code-unit lexicographic comparison) is embedded
  as jsStrLe below.
* chapter and verse numbers are natural numbers (the remote data model only
  produces non-negative integers for them); JS number arithmetic on them
  (multiplication, %, Math.floor division) coincides with Nat arithmetic.
* JS numbers used as coordinates are real numbers; a possibly-NaN coordinate
  (relevant only to validateAndFixNodePositions) is an Option Real with
  none standing for NaN.
* Remote fetches are modelled by oracle functions returning Option results;
  none models a network failure / non-ok response.  The single-threaded
  await-based control flow is modelled by sequential state passing, and the
  number of fetches actually issued is returned explicitly.
-/

namespace BibleGraphSpec

/-- One cross-reference record as returned by the remote graph data source
(interface GraphData in the component). -/
structure GraphData where
  source_book : String
  source_chapter : Nat
  source_verse : Nat
  target_book : String
  target_chapter : Nat
  target_verse : Nat
  deriving DecidableEq, Repr

/-- The canonical node key, the template string
book-chapter-verse used throughout the component. -/
def verseKey (book : String) (chapter verse : Nat) : String :=
  book ++ ("-") ++ toString chapter ++ ("-") ++ toString verse

/-- The page memo key, the template string book-chapter used by
loadAdditionalData. -/
def pageKey (book : String) (chapter : Nat) : String :=
  book ++ ("-") ++ toString chapter

/-- Code-unit lexicographic comparison of character lists: the order used by
the default JavaScript Array.sort comparator on strings. -/
def charListLe : List Char → List Char → Bool
  | [], _ => true
  | _ :: _, [] => false
  | a :: as, b :: bs => if a < b then true else if b < a then false else charListLe as bs

/-- jsStrLe a b is true when a sorts no later than b under the default
JavaScript string comparison. -/
def jsStrLe (a b : String) : Bool := charListLe a.data b.data

/-- createUniqueEdgeId (src/unnamed/part_002 lines 136-140, identical in
src/app/components/BibleGraph.tsx lines 130-134): sort the two endpoint keys
and prefix the fixed tag. -/
def createUniqueEdgeId (source target : String) : String :=
  if jsStrLe source target then ("edge-") ++ source ++ ("-") ++ target
  else ("edge-") ++ target ++ ("-") ++ source

theorem charListLe_total (a b : List Char) : charListLe a b = true ∨ charListLe b a = true := by
  induction a generalizing b with
  | nil => left; rfl
  | cons x xs ih =>
    cases b with
    | nil => right; rfl
    | cons y ys =>
      rcases lt_trichotomy x y with h | h | h
      · left; simp [charListLe, h]
      · subst h
        rcases ih ys with h2 | h2
        · left; simp [charListLe, h2]
        · right; simp [charListLe, h2]
      · right; simp [charListLe, h, not_lt_of_gt h]

theorem charListLe_antisymm (a b : List Char) (h1 : charListLe a b = true)
    (h2 : charListLe b a = true) : a = b := by
  induction a generalizing b with
  | nil =>
    cases b with
    | nil => rfl
    | cons y ys => simp [charListLe] at h2
  | cons x xs ih =>
    cases b with
    | nil => simp [charListLe] at h1
    | cons y ys =>
      rcases lt_trichotomy x y with h | h | h
      · simp [charListLe, h, not_lt_of_gt h] at h2
      · subst h
        simp only [charListLe, lt_irrefl, if_false] at h1 h2
        rw [ih ys h1 h2]
      · simp [charListLe, h, not_lt_of_gt h] at h1

theorem jsStrLe_total (a b : String) : jsStrLe a b = true ∨ jsStrLe b a = true :=
  charListLe_total a.data b.data

theorem jsStrLe_antisymm (a b : String) (h1 : jsStrLe a b = true)
    (h2 : jsStrLe b a = true) : a = b := by
  cases a; cases b
  exact congrArg String.mk (charListLe_antisymm _ _ h1 h2)

/-- C8: For every pair of node key strings s and t, createUniqueEdgeId
returns the same key for (s, t) as for (t, s), and that key is the fixed tag
edge- followed by the two endpoint keys in sorted order. -/
theorem c8_edge_key_symmetric (s t : String) :
    createUniqueEdgeId s t = createUniqueEdgeId t s ∧
    ∃ a b, jsStrLe a b = true ∧ ((a = s ∧ b = t) ∨ (a = t ∧ b = s)) ∧
      createUniqueEdgeId s t = ("edge-") ++ a ++ ("-") ++ b := by
  constructor
  · unfold createUniqueEdgeId
    rcases jsStrLe_total s t with h | h
    · by_cases h2 : jsStrLe t s = true
      · rw [if_pos h, if_pos h2, jsStrLe_antisymm s t h h2]
      · rw [if_pos h, if_neg h2]
    · by_cases h2 : jsStrLe s t = true
      · rw [if_pos h2, if_pos h, jsStrLe_antisymm s t h2 h]
      · rw [if_neg h2, if_pos h]
  · unfold createUniqueEdgeId
    by_cases h : jsStrLe s t = true
    · exact ⟨s, t, h, Or.inl ⟨rfl, rfl⟩, by rw [if_pos h]⟩
    · rcases jsStrLe_total s t with h2 | h2
      · exact absurd h2 h
      · exact ⟨t, s, h2, Or.inr ⟨rfl, rfl⟩, by rw [if_neg h]⟩

/-! ## validateAndFixNodePositions (claim C10)

src/app/components/BibleGraph.tsx lines 202-222 (identical in
src/unnamed/part_002 lines 211-231).  The function only reads each node's id
and position, so the embedding keeps exactly those fields; a coordinate is
Option Real with none standing for NaN. -/

/-- A node as seen by validateAndFixNodePositions: an id and a 2D position
whose coordinates may be NaN (modelled as none). -/
structure VNode where
  id : String
  x : Option ℝ
  y : Option ℝ

/-- isNaN(c) ? 0 : c  on one coordinate. -/
def fixCoord (c : Option ℝ) : Option ℝ :=
  match c with
  | none => some 0
  | some v => some v

/-- Whether a node has a NaN coordinate: isNaN(x) || isNaN(y). -/
def vnodeHasNaN (n : VNode) : Bool := n.x.isNone || n.y.isNone

/-- validateAndFixNodePositions: when some node has a NaN coordinate, map all
nodes replacing each NaN coordinate by 0, write the fixed list to state and
return true; otherwise return false without writing.  The returned pair is
(node list after the call, returned Bool). -/
def validateAndFixNodePositions (nodes : List VNode) : List VNode × Bool :=
  if nodes.any vnodeHasNaN then
    (nodes.map (fun n => { n with x := fixCoord n.x, y := fixCoord n.y }), true)
  else
    (nodes, false)

theorem fixCoord_isSome (c : Option ℝ) : (fixCoord c).isSome := by
  cases c <;> rfl

theorem fixCoord_of_isSome (c : Option ℝ) (h : c.isSome) : fixCoord c = c := by
  cases c
  · simp [Option.isSome] at h
  · rfl

/-- C10: validateAndFixNodePositions is a total function; its result contains
no NaN coordinate (every NaN coordinate is replaced by 0, so every result
coordinate is an actual number, and a NaN coordinate of the input becomes 0);
every node whose coordinates are both non-NaN is left entirely unchanged; and
when no node of the input has a NaN coordinate, the node list is returned
unmodified together with false (no state write). -/
theorem c10_validate_fix_positions (nodes : List VNode) :
    (∀ n ∈ (validateAndFixNodePositions nodes).1, n.x.isSome ∧ n.y.isSome) ∧
    (∀ n ∈ nodes, n.x = none → ∃ m ∈ (validateAndFixNodePositions nodes).1,
      m.id = n.id ∧ m.x = some 0) ∧
    (∀ n ∈ nodes, vnodeHasNaN n = false →
      n ∈ (validateAndFixNodePositions nodes).1) ∧
    ((∀ n ∈ nodes, vnodeHasNaN n = false) →
      validateAndFixNodePositions nodes = (nodes, false)) := by
  have hiff : ∀ n : VNode, vnodeHasNaN n = false ↔ n.x.isSome ∧ n.y.isSome := by
    intro n
    cases hx : n.x <;> cases hy : n.y <;> simp [vnodeHasNaN, hx, hy]
  refine ⟨?_, ?_, ?_, ?_⟩
  · intro n hn
    unfold validateAndFixNodePositions at hn
    by_cases h : nodes.any vnodeHasNaN
    · rw [if_pos h] at hn
      simp only [List.mem_map] at hn
      obtain ⟨m, _, rfl⟩ := hn
      exact ⟨fixCoord_isSome m.x, fixCoord_isSome m.y⟩
    · rw [if_neg h] at hn
      simp only [List.any_eq_true, not_exists, not_and] at h
      have hok := h n hn
      simp only [Bool.not_eq_true, hiff] at hok
      exact hok
  · intro n hn hx
    unfold validateAndFixNodePositions
    have hany : nodes.any vnodeHasNaN = true := by
      refine List.any_eq_true.mpr ⟨n, hn, ?_⟩
      unfold vnodeHasNaN
      rw [hx]
      rfl
    rw [if_pos hany]
    refine ⟨{ n with x := fixCoord n.x, y := fixCoord n.y }, List.mem_map_of_mem _ hn, rfl, ?_⟩
    rw [hx]
    rfl
  · intro n hn hok
    unfold validateAndFixNodePositions
    by_cases h : nodes.any vnodeHasNaN
    · rw [if_pos h]
      obtain ⟨hx, hy⟩ := (hiff n).mp hok
      refine List.mem_map.mpr ⟨n, hn, ?_⟩
      rw [fixCoord_of_isSome _ hx, fixCoord_of_isSome _ hy]
    · rw [if_neg h]
      exact hn
  · intro hall
    unfold validateAndFixNodePositions
    rw [if_neg ?_]
    simp only [List.any_eq_true, not_exists, not_and]
    intro n hn
    rw [hall n hn]
    simp

/-- Witness for C10 at a concrete node list containing a NaN x coordinate. -/
theorem c10_validate_fix_positions_witness :
    ∃ m ∈ (validateAndFixNodePositions
      [⟨("A-1-1"), none, some 3⟩, ⟨("A-1-2"), some 5, some 7⟩]).1,
      m.id = ("A-1-1") ∧ m.x = some 0 :=
  (c10_validate_fix_positions _).2.1 ⟨("A-1-1"), none, some 3⟩ (by simp) rfl

/-! ## Knowledge-card API client (claim C9)

src/app/api/bibleApi.ts.  The axios request interceptor (lines 232-247)
attaches the Authorization header exactly when a token is stored, and never
blocks a request.  The remote annotation store is an oracle from the optional
bearer token and the payload to a response.  Each embedded method returns the
number of HTTP requests it issued together with its outcome. -/

/-- Payload of a knowledge-card create request. -/
structure KnowledgeCardCreate where
  title : String
  content : String
  deriving DecidableEq, Repr

/-- A created knowledge card as returned by the store. -/
structure KnowledgeCard where
  id : String
  title : String
  content : String
  deriving DecidableEq, Repr

/-- Remote annotation store: given the Authorization token forwarded by the
interceptor (none when no token is stored) and the payload, respond with a
card or an HTTP error status. -/
def CardStore := Option String → KnowledgeCardCreate → Except Nat KnowledgeCard

/-- Remote list endpoint for a verse, same convention. -/
def CardListStore := Option String → Except Nat (List KnowledgeCard)

/-- createKnowledgeCard (bibleApi.ts lines 423-431): posts the payload
unconditionally through apiClient; the interceptor supplies the token when
one is stored; any error is logged and rethrown.  Returns (requests issued,
outcome). -/
def createKnowledgeCard (token : Option String) (store : CardStore)
    (card : KnowledgeCardCreate) : Nat × Except Nat KnowledgeCard :=
  (1, store token card)

/-- getVerseKnowledgeCards (bibleApi.ts lines 487-507): with no stored token
it returns an empty list without issuing a request; otherwise it issues the
request and converts a 401 response into an empty list, rethrowing other
errors. -/
def getVerseKnowledgeCards (token : Option String) (store : CardListStore) :
    Nat × Except Nat (List KnowledgeCard) :=
  match token with
  | none => (0, Except.ok [])
  | some t =>
    (1, match store (some t) with
        | Except.error 401 => Except.ok []
        | r => r)

/-- A concrete store that always answers 401 Unauthorized when the
Authorization header is missing. -/
def unauthStore : CardStore := fun token _ =>
  match token with
  | none => Except.error 401
  | some _ => Except.ok ⟨("c1"), ("t"), ("b")⟩

/-- C9 counterexample: an unauthenticated createKnowledgeCard call issues one
HTTP request to the annotation store (not zero) — the Unauthorized rejection
comes from the store's response, not from a pre-network guard. -/
theorem c9_counterexample :
    (createKnowledgeCard none unauthStore ⟨("t"), ("b")⟩).1 = 1 ∧
    ¬ (createKnowledgeCard none unauthStore ⟨("t"), ("b")⟩).1 = 0 ∧
    (createKnowledgeCard none unauthStore ⟨("t"), ("b")⟩).2 = Except.error 401 := by
  refine ⟨rfl, ?_, rfl⟩
  decide

/-- C9 amended: an annotation create attempted with no stored token still
issues exactly one HTTP request, with no Authorization token attached, and
its outcome is whatever the store answers for an unauthenticated request
(Unauthorized is produced by the store, then rethrown); by contrast the
unauthenticated list operation issues zero requests and returns an empty
list. -/
theorem c9_amended (store : CardStore) (listStore : CardListStore)
    (card : KnowledgeCardCreate) :
    createKnowledgeCard none store card = (1, store none card) ∧
    getVerseKnowledgeCards none listStore = (0, Except.ok []) :=
  ⟨rfl, rfl⟩

/-! ## Graph state and merge operations

Shallow embedding of the state of BibleGraphContent (src/unnamed/part_002)
and of its merge operations.  JS Sets over strings become Finset String.
The loadingVerses indicator is added at the start of an operation and removed
in the operation's finally block; in the sequential model an operation
therefore leaves the field unchanged (the guard guarantees the key was absent
before the add), so the embedded operations keep it fixed. -/

/-- A graph node (type BibleNode in the component).  Only the fields the
logic reads are kept: the canonical id, the 2D position and the verse
triple; label and styling are presentation-only. -/
structure BibleNode where
  id : String
  x : ℝ
  y : ℝ
  book : String
  chapter : Nat
  verse : Nat

/-- A graph edge: canonical id, endpoint node ids, and whether it carries the
data.isExpansionEdge tag set by the expansion path. -/
structure GEdge where
  id : String
  source : String
  target : String
  isExpansionEdge : Bool

/-- The component state relevant to the claims. -/
structure GraphState where
  flowNodes : List BibleNode
  flowEdges : List GEdge
  expandedNodes : Finset String
  loadedPages : Finset String
  loadingVerses : Finset String
  lastFocusedVerseId : Option String
  books : List String
  error : Option String

/-- The remote graph data source: graphData models
GET /graph-data?book&chapter&verse&limit=100, verseDetails models
GET /verses/book/chapter/verse (only its ok-ness is used by the caller).
A none result models a network error or non-ok response. -/
structure Remote where
  graphData : String → Nat → Nat → Option (List GraphData)
  verseDetails : String → Nat → Nat → Option Unit

/-- The node ids currently resident in a state. -/
def nodeIds (st : GraphState) : List String := st.flowNodes.map fun n => n.id

/-- The edge ids currently resident in a state. -/
def edgeIds (st : GraphState) : List String := st.flowEdges.map fun e => e.id

/-- Insertion of one string into a list sorted by the JS comparator. -/
def jsSortInsert (a : String) : List String → List String
  | [] => [a]
  | b :: bs => if jsStrLe a b then a :: b :: bs else b :: jsSortInsert a bs

/-- JS Array.sort with the default comparator on a list of strings. -/
def jsSort : List String → List String
  | [] => []
  | a :: as => jsSortInsert a (jsSort as)

/-- Array.from(new Set(books ++ source books ++ target books)).sort():
the books-list update done by loadAdditionalData.  After deduplication the
sorted result does not depend on which occurrence the set kept. -/
def mergeBooks (books : List String) (data : List GraphData) : List String :=
  jsSort ((books ++ data.map (fun i => i.source_book)
    ++ data.map (fun i => i.target_book)).dedup)

/-- Source node built by loadAdditionalData (part_002 lines 864-894). -/
def loadSourceNode (item : GraphData) : BibleNode :=
  let baseX : Nat := item.source_chapter * 250 % 2000
  let baseY : Nat := item.source_chapter / 8 * 200
  { id := verseKey item.source_book item.source_chapter item.source_verse
    x := ((baseX + item.source_verse * 50 : Nat) : ℝ)
    y := ((baseY + item.source_verse * 30 : Nat) : ℝ)
    book := item.source_book
    chapter := item.source_chapter
    verse := item.source_verse }

/-- Target node built by loadAdditionalData (part_002 lines 898-928); its
baseY carries the extra +150 offset. -/
def loadTargetNode (item : GraphData) : BibleNode :=
  let baseX : Nat := item.target_chapter * 250 % 2000
  let baseY : Nat := item.target_chapter / 8 * 200 + 150
  { id := verseKey item.target_book item.target_chapter item.target_verse
    x := ((baseX + item.target_verse * 50 : Nat) : ℝ)
    y := ((baseY + item.target_verse * 30 : Nat) : ℝ)
    book := item.target_book
    chapter := item.target_chapter
    verse := item.target_verse }

/-- Standalone node for a requested verse that the fetched page did not newly
create (part_002 lines 945-976; the same formula builds the fallback node of
loadVerseWithRetries, lines 1152-1182). -/
def standaloneNode (book : String) (chapter verse : Nat) : BibleNode :=
  let baseX : Nat := chapter * 250 % 2000
  let baseY : Nat := chapter / 8 * 200
  { id := verseKey book chapter verse
    x := ((baseX + verse * 50 : Nat) : ℝ)
    y := ((baseY + verse * 30 : Nat) : ℝ)
    book := book
    chapter := chapter
    verse := verse }

/-- Accumulator of the data.forEach loop of loadAdditionalData: nodes and
edges built so far, the incrementally extended existingNodeIds set, and the
foundTargetVerse flag. -/
structure LoadAcc where
  newNodes : List BibleNode
  newEdges : List GEdge
  existingIds : Finset String
  found : Bool

/-- The node-creation step of the loadAdditionalData loop: create the node
(whose id is key) only when key is absent from existingNodeIds, extending the
set and recording whether the requested verse was just found. -/
def loadStepNode (verseId key : String) (nd : BibleNode) (acc : LoadAcc) : LoadAcc :=
  if key ∈ acc.existingIds then acc
  else
    { acc with
        newNodes := acc.newNodes ++ [nd]
        existingIds := insert key acc.existingIds
        found := acc.found || key = verseId }

/-- The edge-creation step of the loadAdditionalData loop: create the edge
only when its canonical id is absent from both the resident edges and the
edges built in this batch. -/
def loadStepEdge (st : GraphState) (ed : GEdge) (acc : LoadAcc) : LoadAcc :=
  if st.flowEdges.any (fun e => e.id = ed.id) ∨ acc.newEdges.any (fun e => e.id = ed.id) then acc
  else { acc with newEdges := acc.newEdges ++ [ed] }

/-- One iteration of the data.forEach loop of loadAdditionalData (part_002
lines 862-941): create the source node if its id is absent, then the target
node, then the edge. -/
def loadStep (st : GraphState) (verseId : String) (acc : LoadAcc) (item : GraphData) : LoadAcc :=
  let sourceId := verseKey item.source_book item.source_chapter item.source_verse
  let targetId := verseKey item.target_book item.target_chapter item.target_verse
  loadStepEdge st
    { id := createUniqueEdgeId sourceId targetId, source := sourceId, target := targetId,
      isExpansionEdge := false }
    (loadStepNode verseId targetId (loadTargetNode item)
      (loadStepNode verseId sourceId (loadSourceNode item) acc))

/-- The batch built by one successful non-empty loadAdditionalData fetch:
the forEach loop over the data followed by the standalone-node fallback,
which appends a node for the requested verse whenever the loop did not newly
create it (the second conjunct of the source condition,
verseId.includes(...), is identically true). -/
def loadBatch (st : GraphState) (b : String) (c v : Nat) (data : List GraphData) : LoadAcc :=
  let acc1 := data.foldl (loadStep st (verseKey b c v)) ⟨[], [], (nodeIds st).toFinset, false⟩
  if acc1.found then acc1
  else
    { acc1 with
        newNodes := acc1.newNodes ++ [standaloneNode b c v]
        found := true }

/-- Result of loadAdditionalData: the next state, the returned Bool
(foundTargetVerse), and the number of network fetches issued. -/
structure LoadResult where
  st : GraphState
  found : Bool
  fetches : Nat

/-- loadAdditionalData (part_002 lines 826-1021).  The guard returns false
without fetching when the verse is in flight or the page already loaded.  A
failed fetch only records the error message.  An empty result marks the page
loaded and returns false.  Otherwise the forEach loop merges nodes and edges
behind the dedup gate; if the requested verse was not newly created, a
standalone node for it is appended unconditionally (the second conjunct of
the source condition, verseId.includes(...), is identically true); finally
nodes/edges are appended to state, books updated, and the page marked
loaded. -/
def loadAdditionalData (remote : Remote) (st : GraphState) (book : String)
    (chapter verse : Nat) : LoadResult :=
  let verseId := verseKey book chapter verse
  let pk := pageKey book chapter
  if verseId ∈ st.loadingVerses ∨ pk ∈ st.loadedPages then ⟨st, false, 0⟩
  else
    match remote.graphData book chapter verse with
    | none => ⟨{ st with error := some ("fetch failed") }, false, 1⟩
    | some data =>
      if data.isEmpty then ⟨{ st with loadedPages := insert pk st.loadedPages }, false, 1⟩
      else
        let acc := loadBatch st book chapter verse data
        ⟨{ st with
             flowNodes := st.flowNodes ++ acc.newNodes
             flowEdges := st.flowEdges ++ acc.newEdges
             books := mergeBooks st.books data
             loadedPages := insert pk st.loadedPages },
         acc.found, 1⟩

/-! ## Layout (claim C3) -/

/-- Distances between consecutive entries of the existing-node position list
(the i > 0 loop of calculateOptimalLayout). -/
noncomputable def consecutiveDistances : List (ℝ × ℝ) → List ℝ
  | a :: b :: rest =>
    Real.sqrt ((b.1 - a.1) ^ 2 + (b.2 - a.2) ^ 2) :: consecutiveDistances (b :: rest)
  | _ => []

/-- calculateOptimalLayout (part_002 lines 393-439, identical in
src/app/components/BibleGraph.tsx lines 381-427).  rand i models the
Math.random() draw of iteration i. -/
noncomputable def calculateOptimalLayout (center : ℝ × ℝ) (relationshipCount : Nat)
    (existingNodes : List (ℝ × ℝ)) (rand : Nat → ℝ) : List (ℝ × ℝ) :=
  let avgDistance : ℝ :=
    if 1 < existingNodes.length then
      let distances := consecutiveDistances existingNodes
      if 0 < distances.length then distances.sum / (distances.length : ℝ) else 250
    else 250
  let baseRadius := min (avgDistance * 0.8) 300
  let radius := max baseRadius (min (baseRadius * Real.sqrt ((relationshipCount : ℝ) / 4)) 400)
  let angleStep := 2 * Real.pi / (relationshipCount : ℝ)
  (List.range relationshipCount).map fun (i : Nat) =>
    let angle := (i : ℝ) * angleStep
    let radiusVariation := radius * (0.9 + rand i * 0.2)
    (center.1 + Real.cos angle * radiusVariation, center.2 + Real.sin angle * radiusVariation)

/-! ## Expansion (expandSelectedNode, part_002 lines 442-586) -/

/-- Node created for a newly discovered expansion neighbor. -/
def expansionNode (rel : GraphData) (pos : ℝ × ℝ) : BibleNode :=
  { id := verseKey rel.target_book rel.target_chapter rel.target_verse
    x := pos.1
    y := pos.2
    book := rel.target_book
    chapter := rel.target_chapter
    verse := rel.target_verse }

/-- Accumulator of the relationships.forEach loop of expandSelectedNode. -/
structure ExpandAcc where
  newNodes : List BibleNode
  newEdges : List GEdge

/-- The node-creation step of the expansion loop (part_002 lines 489-550):
add the target node when its id is absent from the resident ids and from the
nodes built in this batch (positions are indexed by the relationship index;
the source list always has exactly one position per relationship, so the
getD default is never reached). -/
def expandStepNode (existingIds : Finset String) (targetId : String) (nd : BibleNode)
    (acc : ExpandAcc) : ExpandAcc :=
  if targetId ∉ existingIds ∧ ¬ acc.newNodes.any (fun n => n.id = targetId) then
    { acc with newNodes := acc.newNodes ++ [nd] }
  else acc

/-- The edge-creation step of the expansion loop: create the expansion edge
only when its canonical id is absent from resident and fresh edges. -/
def expandStepEdge (st : GraphState) (ed : GEdge) (acc : ExpandAcc) : ExpandAcc :=
  if st.flowEdges.any (fun e => e.id = ed.id) ∨ acc.newEdges.any (fun e => e.id = ed.id) then acc
  else { acc with newEdges := acc.newEdges ++ [ed] }

/-- One iteration of the relationships.forEach loop of expandSelectedNode. -/
def expandStep (st : GraphState) (nodeId : String) (existingIds : Finset String)
    (positions : List (ℝ × ℝ)) (acc : ExpandAcc) (p : Nat × GraphData) : ExpandAcc :=
  let index := p.1
  let rel := p.2
  let targetId := verseKey rel.target_book rel.target_chapter rel.target_verse
  expandStepEdge st
    { id := createUniqueEdgeId nodeId targetId, source := nodeId, target := targetId,
      isExpansionEdge := true }
    (expandStepNode existingIds targetId (expansionNode rel (positions.getD index (0, 0))) acc)

/-- The batch of new nodes and edges built by one successful expansion
fetch: layout positions are computed for the whole relationship list against
the currently resident nodes, then the forEach loop runs. -/
noncomputable def expandBatch (st : GraphState) (sel : BibleNode)
    (relationships : List GraphData) (rand : Nat → ℝ) : ExpandAcc :=
  let nodeId := verseKey sel.book sel.chapter sel.verse
  let positions := calculateOptimalLayout (sel.x, sel.y) relationships.length
    (st.flowNodes.map fun n => (n.x, n.y)) rand
  relationships.enum.foldl (expandStep st nodeId ((nodeIds st).toFinset) positions) ⟨[], []⟩

/-- expandSelectedNode (part_002 lines 442-586; the src/app/components
variant onNodeDoubleClick lines 430-563 differs only in lacking the
in-batch node dedup check and in styling).  If the node is already expanded
the call collapses it: the key is removed from expandedNodes and nothing
else changes.  Otherwise the direct relationships are fetched; on failure
only the error message is recorded; on success layout positions are computed
for the batch, genuinely new neighbor nodes and missing expansion edges are
appended, and the key is added to expandedNodes. -/
noncomputable def expandSelectedNode (st : GraphState) (sel : BibleNode)
    (fetch : Option (List GraphData)) (rand : Nat → ℝ) : GraphState :=
  let nodeId := verseKey sel.book sel.chapter sel.verse
  if nodeId ∈ st.expandedNodes then
    { st with expandedNodes := st.expandedNodes.erase nodeId }
  else
    match fetch with
    | none => { st with error := some ("Failed to load verse relationships") }
    | some relationships =>
      let acc := expandBatch st sel relationships rand
      { st with
          flowNodes := st.flowNodes ++ acc.newNodes
          flowEdges := st.flowEdges ++ acc.newEdges
          expandedNodes := insert nodeId st.expandedNodes }

/-! ## Initial load (part_002 lines 241-352) -/

/-- Source node of the initial load, positioned at (index * 250, 0). -/
def initialSourceNode (item : GraphData) (index : Nat) : BibleNode :=
  { id := verseKey item.source_book item.source_chapter item.source_verse
    x := ((index * 250 : Nat) : ℝ)
    y := 0
    book := item.source_book
    chapter := item.source_chapter
    verse := item.source_verse }

/-- Target node of the initial load, positioned at (index * 250, 150). -/
def initialTargetNode (item : GraphData) (index : Nat) : BibleNode :=
  { id := verseKey item.target_book item.target_chapter item.target_verse
    x := ((index * 250 : Nat) : ℝ)
    y := 150
    book := item.target_book
    chapter := item.target_chapter
    verse := item.target_verse }

/-- Node-creation step of the initial load loop: the nodeMap membership test
of the source is equivalent to testing the ids of the nodes created so
far. -/
def initialAddNode (key : String) (nd : BibleNode) (nodes : List BibleNode) : List BibleNode :=
  if nodes.any (fun n => n.id = key) then nodes else nodes ++ [nd]

/-- Edge-creation step of the initial load loop: newEdges.some dedup. -/
def initialAddEdge (ed : GEdge) (edges : List GEdge) : List GEdge :=
  if edges.any (fun e => e.id = ed.id) then edges else edges ++ [ed]

/-- One iteration of the initial data.forEach loop (part_002 lines
277-336). -/
def initialStep (acc : List BibleNode × List GEdge) (p : Nat × GraphData) :
    List BibleNode × List GEdge :=
  let index := p.1
  let item := p.2
  let sourceId := verseKey item.source_book item.source_chapter item.source_verse
  let targetId := verseKey item.target_book item.target_chapter item.target_verse
  (initialAddNode targetId (initialTargetNode item index)
      (initialAddNode sourceId (initialSourceNode item index) acc.1),
   initialAddEdge
      { id := createUniqueEdgeId sourceId targetId, source := sourceId, target := targetId,
        isExpansionEdge := false } acc.2)

/-- Node and edge lists built by the initial fetchGraphData effect. -/
def initialGraph (data : List GraphData) : List BibleNode × List GEdge :=
  data.enum.foldl initialStep ([], [])

/-- The component state right after the initial load effect ran on the given
fetch result. -/
def initialState (data : List GraphData) : GraphState :=
  { flowNodes := (initialGraph data).1
    flowEdges := (initialGraph data).2
    expandedNodes := ∅
    loadedPages := ∅
    loadingVerses := ∅
    lastFocusedVerseId := none
    books := jsSort ((data.map (fun i => i.source_book)
      ++ data.map (fun i => i.target_book)).dedup)
    error := none }

/-! ## Generic list helpers -/

theorem nodup_concat_of {α : Type} (l : List α) (a : α) (h : l.Nodup) (ha : a ∉ l) :
    (l ++ [a]).Nodup := by
  rw [List.nodup_append]
  exact ⟨h, List.nodup_singleton a, by simpa [List.disjoint_singleton] using ha⟩

theorem find?_append_left {α : Type} (p : α → Bool) (l₁ l₂ : List α) (x : α)
    (h : l₁.find? p = some x) : (l₁ ++ l₂).find? p = some x := by
  induction l₁ with
  | nil => simp [List.find?] at h
  | cons a as ih =>
    by_cases hp : p a
    · simpa [List.find?_cons, hp] using h
    · rw [List.find?_cons_of_neg _ (by simpa using hp)] at h
      rw [List.cons_append, List.find?_cons_of_neg _ (by simpa using hp)]
      exact ih h

theorem foldl_preserves {α β : Type} (P : α → Prop) (f : α → β → α)
    (hf : ∀ acc x, P acc → P (f acc x)) :
    ∀ (l : List β) (a : α), P a → P (l.foldl f a) := by
  intro l
  induction l with
  | nil => intro a h; exact h
  | cons x xs ih => intro a h; exact ih (f a x) (hf a x h)

/-! ## Shape lemmas for the merge operations -/

/-- The guard of loadAdditionalData: duplicate loading prevented, nothing
fetched, false returned. -/
theorem loadAdditionalData_guard (remote : Remote) (st : GraphState) (b : String) (c v : Nat)
    (h : verseKey b c v ∈ st.loadingVerses ∨ pageKey b c ∈ st.loadedPages) :
    loadAdditionalData remote st b c v = ⟨st, false, 0⟩ := by
  simp only [loadAdditionalData, if_pos h]

/-- A failed neighborhood fetch only records the error message. -/
theorem loadAdditionalData_fail (remote : Remote) (st : GraphState) (b : String) (c v : Nat)
    (hg : ¬(verseKey b c v ∈ st.loadingVerses ∨ pageKey b c ∈ st.loadedPages))
    (hr : remote.graphData b c v = none) :
    loadAdditionalData remote st b c v = ⟨{ st with error := some ("fetch failed") }, false, 1⟩ := by
  simp only [loadAdditionalData, if_neg hg, hr]

/-- An empty neighborhood marks the page loaded and returns false. -/
theorem loadAdditionalData_empty (remote : Remote) (st : GraphState) (b : String) (c v : Nat)
    (hg : ¬(verseKey b c v ∈ st.loadingVerses ∨ pageKey b c ∈ st.loadedPages))
    (hr : remote.graphData b c v = some []) :
    loadAdditionalData remote st b c v =
      ⟨{ st with loadedPages := insert (pageKey b c) st.loadedPages }, false, 1⟩ := by
  simp only [loadAdditionalData, if_neg hg, hr, List.isEmpty_nil, if_pos]

/-- A successful non-empty neighborhood fetch appends the deduplicated batch,
updates the books list and marks the page loaded. -/
theorem loadAdditionalData_success (remote : Remote) (st : GraphState) (b : String) (c v : Nat)
    (data : List GraphData)
    (hg : ¬(verseKey b c v ∈ st.loadingVerses ∨ pageKey b c ∈ st.loadedPages))
    (hr : remote.graphData b c v = some data) (hne : data ≠ []) :
    loadAdditionalData remote st b c v =
      ⟨{ st with
           flowNodes := st.flowNodes ++ (loadBatch st b c v data).newNodes
           flowEdges := st.flowEdges ++ (loadBatch st b c v data).newEdges
           books := mergeBooks st.books data
           loadedPages := insert (pageKey b c) st.loadedPages },
       (loadBatch st b c v data).found, 1⟩ := by
  have hne2 : data.isEmpty = false := by
    cases data with
    | nil => exact absurd rfl hne
    | cons x xs => rfl
  simp only [loadAdditionalData, if_neg hg, hr, hne2, Bool.false_eq_true, if_false]

/-- Every outcome of loadAdditionalData appends to the node and edge lists
and leaves expandedNodes, loadingVerses and lastFocusedVerseId unchanged. -/
theorem loadAdditionalData_state_shape (remote : Remote) (st : GraphState) (b : String)
    (c v : Nat) :
    ∃ extraN extraE,
      (loadAdditionalData remote st b c v).st.flowNodes = st.flowNodes ++ extraN ∧
      (loadAdditionalData remote st b c v).st.flowEdges = st.flowEdges ++ extraE ∧
      (loadAdditionalData remote st b c v).st.expandedNodes = st.expandedNodes ∧
      (loadAdditionalData remote st b c v).st.loadingVerses = st.loadingVerses ∧
      (loadAdditionalData remote st b c v).st.lastFocusedVerseId = st.lastFocusedVerseId := by
  by_cases hg : verseKey b c v ∈ st.loadingVerses ∨ pageKey b c ∈ st.loadedPages
  · rw [loadAdditionalData_guard remote st b c v hg]
    exact ⟨[], [], by simp⟩
  · cases hr : remote.graphData b c v with
    | none =>
      rw [loadAdditionalData_fail remote st b c v hg hr]
      exact ⟨[], [], by simp⟩
    | some data =>
      cases data with
      | nil =>
        rw [loadAdditionalData_empty remote st b c v hg hr]
        exact ⟨[], [], by simp⟩
      | cons d ds =>
        rw [loadAdditionalData_success remote st b c v (d :: ds) hg hr (by simp)]
        exact ⟨_, _, rfl, rfl, rfl, rfl, rfl⟩

/-- Collapse branch of expandSelectedNode: only the expandedNodes entry is
removed. -/
theorem expandSelectedNode_collapse (st : GraphState) (sel : BibleNode)
    (fetch : Option (List GraphData)) (rand : Nat → ℝ)
    (h : verseKey sel.book sel.chapter sel.verse ∈ st.expandedNodes) :
    expandSelectedNode st sel fetch rand =
      { st with expandedNodes := st.expandedNodes.erase (verseKey sel.book sel.chapter sel.verse) } := by
  simp only [expandSelectedNode, if_pos h]

/-- A failed expansion fetch only records the error message. -/
theorem expandSelectedNode_fail (st : GraphState) (sel : BibleNode) (rand : Nat → ℝ)
    (h : verseKey sel.book sel.chapter sel.verse ∉ st.expandedNodes) :
    expandSelectedNode st sel none rand =
      { st with error := some ("Failed to load verse relationships") } := by
  simp only [expandSelectedNode, if_neg h]

/-- A successful expansion appends the batch and inserts the key into
expandedNodes. -/
theorem expandSelectedNode_success (st : GraphState) (sel : BibleNode)
    (relationships : List GraphData) (rand : Nat → ℝ)
    (h : verseKey sel.book sel.chapter sel.verse ∉ st.expandedNodes) :
    expandSelectedNode st sel (some relationships) rand =
      { st with
          flowNodes := st.flowNodes ++ (expandBatch st sel relationships rand).newNodes
          flowEdges := st.flowEdges ++ (expandBatch st sel relationships rand).newEdges
          expandedNodes := insert (verseKey sel.book sel.chapter sel.verse) st.expandedNodes } := by
  simp only [expandSelectedNode, if_neg h]

/-- Every branch of expandSelectedNode appends to the node list. -/
theorem expandSelectedNode_flowNodes_append (st : GraphState) (sel : BibleNode)
    (fetch : Option (List GraphData)) (rand : Nat → ℝ) :
    ∃ extra, (expandSelectedNode st sel fetch rand).flowNodes = st.flowNodes ++ extra := by
  by_cases h : verseKey sel.book sel.chapter sel.verse ∈ st.expandedNodes
  · rw [expandSelectedNode_collapse st sel fetch rand h]
    exact ⟨[], by simp⟩
  · cases fetch with
    | none =>
      rw [expandSelectedNode_fail st sel rand h]
      exact ⟨[], by simp⟩
    | some rels =>
      rw [expandSelectedNode_success st sel rels rand h]
      exact ⟨_, rfl⟩

/-! ## Concrete fixtures used by witnesses and counterexamples -/

/-- The component state before any data arrived. -/
def emptyState : GraphState := ⟨[], [], ∅, ∅, ∅, none, [], none⟩

/-- A resident node for verse A 1:1 at the origin. -/
def nodeA : BibleNode := ⟨verseKey ("A") 1 1, 0, 0, ("A"), 1, 1⟩

/-- A state holding exactly the node for A 1:1 and nothing else. -/
def stA : GraphState := { emptyState with flowNodes := [nodeA] }

/-- A cross-reference from A 1:1 to B 2:2. -/
def relAB : GraphData := ⟨("A"), 1, 1, ("B"), 2, 2⟩

/-- A cross-reference from C 1:1 to C 1:2 (mentioning neither A nor B). -/
def relCC : GraphData := ⟨("C"), 1, 1, ("C"), 1, 2⟩

/-- A remote whose fetches all fail. -/
def failRemote : Remote := ⟨fun _ _ _ => none, fun _ _ _ => none⟩

/-- A remote that always answers with an empty relationship list. -/
def emptyRemote : Remote := ⟨fun _ _ _ => some [], fun _ _ _ => none⟩

/-- A remote that always answers with the single relationship relAB. -/
def oneRelRemote : Remote := ⟨fun _ _ _ => some [relAB], fun _ _ _ => none⟩

/-- A remote that always answers with the single relationship relCC. -/
def relCCRemote : Remote := ⟨fun _ _ _ => some [relCC], fun _ _ _ => none⟩

/-- A deterministic stand-in for the Math.random() draws. -/
def zeroRand : Nat → ℝ := fun _ => 0

/-! ## Claim C5: failed fetches leave the canonical state unchanged -/

/-- C5: if the neighborhood fetch of loadAdditionalData fails, the node and
edge lists are unchanged, the page is not marked loaded, the expanded-node
set is untouched and false is returned; if the relationship fetch of an
expansion fails, the node and edge lists, the expanded-node set and the
loaded-pages memo are all exactly what they were before the call. -/
theorem c5_failed_fetch_unchanged (remote : Remote) (st : GraphState) (b : String)
    (c v : Nat) (sel : BibleNode) (rand : Nat → ℝ) :
    ((¬(verseKey b c v ∈ st.loadingVerses ∨ pageKey b c ∈ st.loadedPages)) →
      remote.graphData b c v = none →
      (loadAdditionalData remote st b c v).st.flowNodes = st.flowNodes ∧
      (loadAdditionalData remote st b c v).st.flowEdges = st.flowEdges ∧
      (loadAdditionalData remote st b c v).st.loadedPages = st.loadedPages ∧
      (loadAdditionalData remote st b c v).st.expandedNodes = st.expandedNodes ∧
      (loadAdditionalData remote st b c v).found = false) ∧
    (verseKey sel.book sel.chapter sel.verse ∉ st.expandedNodes →
      (expandSelectedNode st sel none rand).flowNodes = st.flowNodes ∧
      (expandSelectedNode st sel none rand).flowEdges = st.flowEdges ∧
      (expandSelectedNode st sel none rand).expandedNodes = st.expandedNodes ∧
      (expandSelectedNode st sel none rand).loadedPages = st.loadedPages) := by
  constructor
  · intro hg hr
    rw [loadAdditionalData_fail remote st b c v hg hr]
    exact ⟨rfl, rfl, rfl, rfl, rfl⟩
  · intro h
    rw [expandSelectedNode_fail st sel rand h]
    exact ⟨rfl, rfl, rfl, rfl⟩

/-- Witness for C5 at a concrete failing remote and empty state. -/
theorem c5_failed_fetch_unchanged_witness :
    (loadAdditionalData failRemote emptyState ("A") 1 1).st.flowNodes = emptyState.flowNodes ∧
    (loadAdditionalData failRemote emptyState ("A") 1 1).found = false ∧
    (expandSelectedNode emptyState nodeA none zeroRand).expandedNodes = emptyState.expandedNodes := by
  have h := c5_failed_fetch_unchanged failRemote emptyState ("A") 1 1 nodeA zeroRand
  have h1 := h.1 (by simp [emptyState]) rfl
  have h2 := h.2 (by simp [emptyState])
  exact ⟨h1.1, h1.2.2.2.2, h2.2.2.1⟩

/-! ## Claim C6: merges never move resident nodes -/

/-- C6: both merge paths only append to the node list, so for every node key
resident before the merge the node record found for that key (its position
included) is the same after the merge as before; positions are computed only
for the genuinely new appended nodes. -/
theorem c6_positions_stable (remote : Remote) (st : GraphState) (b : String) (c v : Nat)
    (sel : BibleNode) (fetch : Option (List GraphData)) (rand : Nat → ℝ) :
    (∃ extra, (loadAdditionalData remote st b c v).st.flowNodes = st.flowNodes ++ extra) ∧
    (∃ extra, (expandSelectedNode st sel fetch rand).flowNodes = st.flowNodes ++ extra) ∧
    (∀ k x, st.flowNodes.find? (fun n => n.id = k) = some x →
      (loadAdditionalData remote st b c v).st.flowNodes.find? (fun n => n.id = k) = some x ∧
      (expandSelectedNode st sel fetch rand).flowNodes.find? (fun n => n.id = k) = some x) := by
  obtain ⟨extraN, _, hN, _⟩ := loadAdditionalData_state_shape remote st b c v
  obtain ⟨extraM, hM⟩ := expandSelectedNode_flowNodes_append st sel fetch rand
  refine ⟨⟨extraN, hN⟩, ⟨extraM, hM⟩, ?_⟩
  intro k x hfind
  rw [hN, hM]
  exact ⟨find?_append_left _ _ _ _ hfind, find?_append_left _ _ _ _ hfind⟩

/-- Witness for C6: the node for A 1:1 is found unchanged after a concrete
load and a concrete expansion. -/
theorem c6_positions_stable_witness :
    (loadAdditionalData emptyRemote stA ("B") 1 1).st.flowNodes.find?
      (fun n => n.id = ("A-1-1")) = some nodeA ∧
    (expandSelectedNode stA nodeA (some []) zeroRand).flowNodes.find?
      (fun n => n.id = ("A-1-1")) = some nodeA := by
  have h := (c6_positions_stable emptyRemote stA ("B") 1 1 nodeA (some []) zeroRand).2.2
    (("A-1-1")) nodeA (by rfl)
  exact h

/-! ## Claim C2: expand followed by collapse -/

/-- C2 counterexample: starting from the state holding only node A 1:1 with
no edges, expanding A 1:1 (fetch answering one relationship) and then
immediately collapsing it leaves one edge in the state, while the edge set
before the expand was empty — collapse removes only the expandedNodes entry,
never the expansion edges. -/
theorem c2_counterexample :
    stA.flowEdges.length = 0 ∧
    (expandSelectedNode (expandSelectedNode stA nodeA (some [relAB]) zeroRand)
      nodeA none zeroRand).flowEdges.length = 1 ∧
    (expandSelectedNode (expandSelectedNode stA nodeA (some [relAB]) zeroRand)
      nodeA none zeroRand).expandedNodes = stA.expandedNodes := by
  refine ⟨rfl, ?_, ?_⟩
  · rfl
  · rw [expandSelectedNode_collapse _ nodeA none zeroRand ?hmem,
      expandSelectedNode_success stA nodeA [relAB] zeroRand ?hnot]
    · simp [stA, emptyState]
    case hnot => simp [stA, emptyState]
    case hmem =>
      rw [expandSelectedNode_success stA nodeA [relAB] zeroRand (by simp [stA, emptyState])]
      exact Finset.mem_insert_self _ _

/-- C2 amended: expand(k) immediately followed by collapse(k) restores the
expanded-node set exactly; the node list and the edge list both stay at
their post-expand value (each a superset of the respective pre-expand list:
newly discovered nodes persist, and so do the expansion edges, which are
only restyled, not removed). -/
theorem c2_amended (st : GraphState) (sel : BibleNode) (rels : List GraphData)
    (rand : Nat → ℝ) (fetch2 : Option (List GraphData)) (rand2 : Nat → ℝ)
    (h : verseKey sel.book sel.chapter sel.verse ∉ st.expandedNodes) :
    (expandSelectedNode (expandSelectedNode st sel (some rels) rand) sel fetch2 rand2).expandedNodes
        = st.expandedNodes ∧
    (expandSelectedNode (expandSelectedNode st sel (some rels) rand) sel fetch2 rand2).flowNodes
        = (expandSelectedNode st sel (some rels) rand).flowNodes ∧
    (expandSelectedNode (expandSelectedNode st sel (some rels) rand) sel fetch2 rand2).flowEdges
        = (expandSelectedNode st sel (some rels) rand).flowEdges ∧
    (∃ extra, (expandSelectedNode st sel (some rels) rand).flowNodes = st.flowNodes ++ extra) ∧
    (∃ extra, (expandSelectedNode st sel (some rels) rand).flowEdges = st.flowEdges ++ extra) := by
  have hsucc := expandSelectedNode_success st sel rels rand h
  have hmem : verseKey sel.book sel.chapter sel.verse ∈
      (expandSelectedNode st sel (some rels) rand).expandedNodes := by
    rw [hsucc]
    exact Finset.mem_insert_self _ _
  have hcol := expandSelectedNode_collapse (expandSelectedNode st sel (some rels) rand)
    sel fetch2 rand2 hmem
  refine ⟨?_, ?_, ?_, ?_, ?_⟩
  · rw [hcol]
    show (expandSelectedNode st sel (some rels) rand).expandedNodes.erase _ = st.expandedNodes
    rw [hsucc]
    exact Finset.erase_insert h
  · rw [hcol]
  · rw [hcol]
  · rw [hsucc]
    exact ⟨_, rfl⟩
  · rw [hsucc]
    exact ⟨_, rfl⟩

/-- Witness for C2 amended at the concrete expand/collapse pair of the
counterexample state. -/
theorem c2_amended_witness :
    (expandSelectedNode (expandSelectedNode stA nodeA (some [relAB]) zeroRand)
      nodeA none zeroRand).expandedNodes = stA.expandedNodes ∧
    (∃ extra, (expandSelectedNode stA nodeA (some [relAB]) zeroRand).flowEdges
      = stA.flowEdges ++ extra) := by
  have h := c2_amended stA nodeA [relAB] zeroRand none zeroRand (by simp [stA, emptyState])
  exact ⟨h.1, h.2.2.2.2⟩

/-! ## Claim C4: page memo behavior of loadAdditionalData -/

/-- Any successful loadAdditionalData fetch marks the page key loaded. -/
theorem loadAdditionalData_marks_page (remote : Remote) (st : GraphState) (b : String)
    (c v : Nat) (data : List GraphData)
    (hg : ¬(verseKey b c v ∈ st.loadingVerses ∨ pageKey b c ∈ st.loadedPages))
    (hr : remote.graphData b c v = some data) :
    (loadAdditionalData remote st b c v).st.loadedPages =
      insert (pageKey b c) st.loadedPages := by
  cases data with
  | nil => rw [loadAdditionalData_empty remote st b c v hg hr]
  | cons d ds => rw [loadAdditionalData_success remote st b c v (d :: ds) hg hr (by simp)]

/-- C4 counterexample: with a remote answering one relationship whose source
is the requested verse, the first load returns true (the verse was found)
but the immediately repeated call for the same page returns false, not the
cached outcome of the original load. -/
theorem c4_counterexample :
    (loadAdditionalData oneRelRemote emptyState ("A") 1 1).found = true ∧
    (loadAdditionalData oneRelRemote
      (loadAdditionalData oneRelRemote emptyState ("A") 1 1).st ("A") 1 1).found = false ∧
    ¬((loadAdditionalData oneRelRemote
        (loadAdditionalData oneRelRemote emptyState ("A") 1 1).st ("A") 1 1).found =
      (loadAdditionalData oneRelRemote emptyState ("A") 1 1).found) := by
  exact ⟨rfl, rfl, by decide⟩

/-- C4 amended: after a completed (successful) loadAdditionalData call for a
page — including one whose fetch returned zero relationships — the page key
is in the loaded-pages set, and every subsequent loadAdditionalData call for
the same page key issues zero network fetches, leaves the state entirely
unchanged and returns false (the Bool result of the original call is not
cached; a repeat call always returns false). -/
theorem c4_page_memo (remote : Remote) (st : GraphState) (b : String) (c v : Nat)
    (data : List GraphData)
    (hg : ¬(verseKey b c v ∈ st.loadingVerses ∨ pageKey b c ∈ st.loadedPages))
    (hr : remote.graphData b c v = some data) :
    pageKey b c ∈ (loadAdditionalData remote st b c v).st.loadedPages ∧
    ∀ (remote2 : Remote) (b2 : String) (c2 v2 : Nat), pageKey b2 c2 = pageKey b c →
      loadAdditionalData remote2 (loadAdditionalData remote st b c v).st b2 c2 v2 =
        ⟨(loadAdditionalData remote st b c v).st, false, 0⟩ := by
  have hmark := loadAdditionalData_marks_page remote st b c v data hg hr
  have hmem : pageKey b c ∈ (loadAdditionalData remote st b c v).st.loadedPages := by
    rw [hmark]
    exact Finset.mem_insert_self _ _
  refine ⟨hmem, ?_⟩
  intro remote2 b2 c2 v2 hpk
  exact loadAdditionalData_guard remote2 _ b2 c2 v2 (Or.inr (by rw [hpk]; exact hmem))

/-- Witness for C4 at a concrete empty-result load: the page is marked and
the repeat call is the guarded no-op. -/
theorem c4_page_memo_witness :
    pageKey ("X") 1 ∈ (loadAdditionalData emptyRemote emptyState ("X") 1 1).st.loadedPages ∧
    loadAdditionalData emptyRemote
      (loadAdditionalData emptyRemote emptyState ("X") 1 1).st ("X") 1 2 =
      ⟨(loadAdditionalData emptyRemote emptyState ("X") 1 1).st, false, 0⟩ := by
  have h := c4_page_memo emptyRemote emptyState ("X") 1 1 [] (by simp [emptyState]) rfl
  exact ⟨h.1, h.2 emptyRemote ("X") 1 2 rfl⟩

/-! ## Claim C1: the dedup gate keeps node and edge keys unique -/

/-- No two resident nodes share a canonical key. -/
def NodesUnique (st : GraphState) : Prop := (nodeIds st).Nodup

/-- No two resident edges share a canonical key. -/
def EdgesUnique (st : GraphState) : Prop := (edgeIds st).Nodup

/-- Invariant of the loadAdditionalData loop: the resident ids extended by
the batch stay duplicate-free (nodes and edges), existingNodeIds is exactly
that id set, and while foundTargetVerse is still false the requested verse
id is not among the batch nodes. -/
def LoadInv (st : GraphState) (verseId : String) (acc : LoadAcc) : Prop :=
  (nodeIds st ++ acc.newNodes.map fun n => n.id).Nodup ∧
  acc.existingIds = (nodeIds st ++ acc.newNodes.map fun n => n.id).toFinset ∧
  (edgeIds st ++ acc.newEdges.map fun e => e.id).Nodup ∧
  (acc.found = false → verseId ∉ acc.newNodes.map fun n => n.id)

theorem loadStepNode_inv (st : GraphState) (verseId key : String) (nd : BibleNode)
    (acc : LoadAcc) (hid : nd.id = key) (h : LoadInv st verseId acc) :
    LoadInv st verseId (loadStepNode verseId key nd acc) := by
  unfold loadStepNode
  split
  · exact h
  · rename_i hnot
    obtain ⟨h1, h2, h3, h4⟩ := h
    have hkey : key ∉ nodeIds st ++ acc.newNodes.map fun n => n.id := by
      intro hmem
      exact hnot (h2 ▸ List.mem_toFinset.mpr hmem)
    refine ⟨?_, ?_, h3, ?_⟩
    · simp only [List.map_append, List.map_cons, List.map_nil, ← List.append_assoc]
      exact nodup_concat_of _ _ h1 (by simpa [hid] using hkey)
    · simp only [h2, List.map_append, List.map_cons, List.map_nil, ← List.append_assoc]
      ext a
      simp only [Finset.mem_insert, List.mem_toFinset, List.mem_append, List.mem_singleton, hid]
      tauto
    · intro hf
      simp only [Bool.or_eq_false_iff, decide_eq_false_iff_not] at hf
      intro hmem
      simp only [List.map_append, List.map_cons, List.map_nil, List.mem_append,
        List.mem_singleton, hid] at hmem
      rcases hmem with hmem | hmem
      · exact h4 hf.1 hmem
      · exact hf.2 hmem.symm

theorem loadStepEdge_inv (st : GraphState) (verseId : String) (ed : GEdge)
    (acc : LoadAcc) (h : LoadInv st verseId acc) :
    LoadInv st verseId (loadStepEdge st ed acc) := by
  unfold loadStepEdge
  split
  · exact h
  · rename_i hnot
    obtain ⟨h1, h2, h3, h4⟩ := h
    rw [not_or] at hnot
    obtain ⟨hst, hnew⟩ := hnot
    have hid : ed.id ∉ edgeIds st ++ acc.newEdges.map fun e => e.id := by
      simp only [List.any_eq_true, decide_eq_true_eq, not_exists, not_and] at hst hnew
      intro hmem
      rcases List.mem_append.mp hmem with hmem | hmem
      · obtain ⟨e, he, heid⟩ := List.mem_map.mp hmem
        exact hst e he heid
      · obtain ⟨e, he, heid⟩ := List.mem_map.mp hmem
        exact hnew e he heid
    refine ⟨h1, h2, ?_, h4⟩
    simp only [List.map_append, List.map_cons, List.map_nil, ← List.append_assoc]
    exact nodup_concat_of _ _ h3 hid

theorem loadStep_inv (st : GraphState) (verseId : String) (acc : LoadAcc)
    (item : GraphData) (h : LoadInv st verseId acc) :
    LoadInv st verseId (loadStep st verseId acc item) := by
  unfold loadStep
  exact loadStepEdge_inv st verseId _ _
    (loadStepNode_inv st verseId _ _ _ rfl (loadStepNode_inv st verseId _ _ _ rfl h))

/-- The batch of a successful load keeps resident and fresh ids jointly
duplicate-free, provided the requested verse is not already resident. -/
theorem loadBatch_inv (st : GraphState) (b : String) (c v : Nat) (data : List GraphData)
    (hok : verseKey b c v ∉ nodeIds st) (hn : NodesUnique st) (he : EdgesUnique st) :
    (nodeIds st ++ (loadBatch st b c v data).newNodes.map fun n => n.id).Nodup ∧
    (edgeIds st ++ (loadBatch st b c v data).newEdges.map fun e => e.id).Nodup := by
  have hinv0 : LoadInv st (verseKey b c v) ⟨[], [], (nodeIds st).toFinset, false⟩ :=
    ⟨by simpa using hn, by simp, by simpa using he, by simp⟩
  have hinv := foldl_preserves (LoadInv st (verseKey b c v))
    (loadStep st (verseKey b c v)) (loadStep_inv st (verseKey b c v)) data _ hinv0
  unfold loadBatch
  set acc1 := data.foldl (loadStep st (verseKey b c v))
    ⟨[], [], (nodeIds st).toFinset, false⟩ with hacc1
  by_cases hf : acc1.found = true
  · rw [if_pos hf]
    exact ⟨hinv.1, hinv.2.2.1⟩
  · rw [if_neg hf]
    constructor
    · simp only [List.map_append, List.map_cons, List.map_nil, ← List.append_assoc]
      refine nodup_concat_of _ _ hinv.1 ?_
      have h4 := hinv.2.2.2 (by simpa using hf)
      show verseKey b c v ∉ _
      simp only [List.mem_append]
      rintro (hmem | hmem)
      · exact hok hmem
      · exact h4 hmem
    · exact hinv.2.2.1

/-- loadAdditionalData preserves node- and edge-key uniqueness provided the
requested verse is not already resident (claim C1 fails without this
proviso: see the counterexample). -/
theorem load_preserves_unique (remote : Remote) (st : GraphState) (b : String) (c v : Nat)
    (hok : verseKey b c v ∉ nodeIds st) (hn : NodesUnique st) (he : EdgesUnique st) :
    NodesUnique (loadAdditionalData remote st b c v).st ∧
    EdgesUnique (loadAdditionalData remote st b c v).st := by
  by_cases hg : verseKey b c v ∈ st.loadingVerses ∨ pageKey b c ∈ st.loadedPages
  · rw [loadAdditionalData_guard remote st b c v hg]
    exact ⟨hn, he⟩
  · cases hr : remote.graphData b c v with
    | none =>
      rw [loadAdditionalData_fail remote st b c v hg hr]
      exact ⟨hn, he⟩
    | some data =>
      cases data with
      | nil =>
        rw [loadAdditionalData_empty remote st b c v hg hr]
        exact ⟨hn, he⟩
      | cons d ds =>
        rw [loadAdditionalData_success remote st b c v (d :: ds) hg hr (by simp)]
        have hbatch := loadBatch_inv st b c v (d :: ds) hok hn he
        constructor
        · unfold NodesUnique nodeIds
          simp only [List.map_append]
          exact hbatch.1
        · unfold EdgesUnique edgeIds
          simp only [List.map_append]
          exact hbatch.2

/-- Invariant of the expansion loop: resident ids extended by the batch stay
duplicate-free, for nodes and for edges. -/
def ExpandInv (st : GraphState) (acc : ExpandAcc) : Prop :=
  (nodeIds st ++ acc.newNodes.map fun n => n.id).Nodup ∧
  (edgeIds st ++ acc.newEdges.map fun e => e.id).Nodup

theorem expandStepNode_inv (st : GraphState) (targetId : String) (nd : BibleNode)
    (acc : ExpandAcc) (hid : nd.id = targetId) (h : ExpandInv st acc) :
    ExpandInv st (expandStepNode ((nodeIds st).toFinset) targetId nd acc) := by
  unfold expandStepNode
  split
  · rename_i hcond
    obtain ⟨hnotin, hnotnew⟩ := hcond
    obtain ⟨h1, h2⟩ := h
    refine ⟨?_, h2⟩
    simp only [List.map_append, List.map_cons, List.map_nil, ← List.append_assoc]
    refine nodup_concat_of _ _ h1 ?_
    rw [hid]
    simp only [List.mem_append]
    rintro (hmem | hmem)
    · exact hnotin (List.mem_toFinset.mpr hmem)
    · simp only [List.any_eq_true, decide_eq_true_eq, not_exists, not_and] at hnotnew
      obtain ⟨n, hmemn, hidn⟩ := List.mem_map.mp hmem
      exact hnotnew n hmemn hidn
  · exact h

theorem expandStepEdge_inv (st : GraphState) (ed : GEdge) (acc : ExpandAcc)
    (h : ExpandInv st acc) : ExpandInv st (expandStepEdge st ed acc) := by
  unfold expandStepEdge
  split
  · exact h
  · rename_i hnot
    rw [not_or] at hnot
    obtain ⟨hst, hnew⟩ := hnot
    obtain ⟨h1, h2⟩ := h
    refine ⟨h1, ?_⟩
    simp only [List.map_append, List.map_cons, List.map_nil, ← List.append_assoc]
    refine nodup_concat_of _ _ h2 ?_
    simp only [List.any_eq_true, decide_eq_true_eq, not_exists, not_and] at hst hnew
    intro hmem
    rcases List.mem_append.mp hmem with hmem | hmem
    · obtain ⟨e, he, heid⟩ := List.mem_map.mp hmem
      exact hst e he heid
    · obtain ⟨e, he, heid⟩ := List.mem_map.mp hmem
      exact hnew e he heid

theorem expandStep_inv (st : GraphState) (nodeId : String) (positions : List (ℝ × ℝ))
    (acc : ExpandAcc) (p : Nat × GraphData) (h : ExpandInv st acc) :
    ExpandInv st (expandStep st nodeId ((nodeIds st).toFinset) positions acc p) := by
  unfold expandStep
  exact expandStepEdge_inv st _ _ (expandStepNode_inv st _ _ _ rfl h)

/-- expandSelectedNode preserves node- and edge-key uniqueness
unconditionally. -/
theorem expand_preserves_unique (st : GraphState) (sel : BibleNode)
    (fetch : Option (List GraphData)) (rand : Nat → ℝ)
    (hn : NodesUnique st) (he : EdgesUnique st) :
    NodesUnique (expandSelectedNode st sel fetch rand) ∧
    EdgesUnique (expandSelectedNode st sel fetch rand) := by
  by_cases h : verseKey sel.book sel.chapter sel.verse ∈ st.expandedNodes
  · rw [expandSelectedNode_collapse st sel fetch rand h]
    exact ⟨hn, he⟩
  · cases fetch with
    | none =>
      rw [expandSelectedNode_fail st sel rand h]
      exact ⟨hn, he⟩
    | some rels =>
      rw [expandSelectedNode_success st sel rels rand h]
      have hinv0 : ExpandInv st ⟨[], []⟩ := ⟨by simpa using hn, by simpa using he⟩
      have hinv := foldl_preserves (ExpandInv st)
        (expandStep st (verseKey sel.book sel.chapter sel.verse) ((nodeIds st).toFinset)
          (calculateOptimalLayout (sel.x, sel.y) rels.length
            (st.flowNodes.map fun n => (n.x, n.y)) rand))
        (expandStep_inv st (verseKey sel.book sel.chapter sel.verse) _) rels.enum _ hinv0
      constructor
      · unfold NodesUnique nodeIds
        simp only [List.map_append]
        exact hinv.1
      · unfold EdgesUnique edgeIds
        simp only [List.map_append]
        exact hinv.2

/-- Invariant of the initial load loop: the ids of the nodes and edges built
so far are duplicate-free. -/
def InitInv (acc : List BibleNode × List GEdge) : Prop :=
  (acc.1.map fun n => n.id).Nodup ∧ (acc.2.map fun e => e.id).Nodup

theorem initialAddNode_nodup (key : String) (nd : BibleNode) (nodes : List BibleNode)
    (hid : nd.id = key) (h : (nodes.map fun n => n.id).Nodup) :
    ((initialAddNode key nd nodes).map fun n => n.id).Nodup := by
  unfold initialAddNode
  split
  · exact h
  · rename_i hnot
    simp only [List.map_append, List.map_cons, List.map_nil]
    refine nodup_concat_of _ _ h ?_
    simp only [List.any_eq_true, decide_eq_true_eq, not_exists, not_and] at hnot
    intro hmem
    obtain ⟨n, hmemn, hidn⟩ := List.mem_map.mp hmem
    exact hnot n hmemn (by rw [hidn, hid])

theorem initialAddEdge_nodup (ed : GEdge) (edges : List GEdge)
    (h : (edges.map fun e => e.id).Nodup) :
    ((initialAddEdge ed edges).map fun e => e.id).Nodup := by
  unfold initialAddEdge
  split
  · exact h
  · rename_i hnot
    simp only [List.map_append, List.map_cons, List.map_nil]
    refine nodup_concat_of _ _ h ?_
    simp only [List.any_eq_true, decide_eq_true_eq, not_exists, not_and] at hnot
    intro hmem
    obtain ⟨e, hmeme, hide⟩ := List.mem_map.mp hmem
    exact hnot e hmeme hide

theorem initialStep_inv (acc : List BibleNode × List GEdge) (p : Nat × GraphData)
    (h : InitInv acc) : InitInv (initialStep acc p) := by
  unfold initialStep
  exact ⟨initialAddNode_nodup _ _ _ rfl (initialAddNode_nodup _ _ _ rfl h.1),
    initialAddEdge_nodup _ _ h.2⟩

/-- The initial load builds duplicate-free node and edge key lists. -/
theorem initial_unique (data : List GraphData) :
    NodesUnique (initialState data) ∧ EdgesUnique (initialState data) := by
  have h := foldl_preserves InitInv initialStep initialStep_inv data.enum ([], [])
    ⟨List.nodup_nil, List.nodup_nil⟩
  exact ⟨h.1, h.2⟩

/-- One user-driven merge operation applied to the graph state: a
neighborhood load (loadAdditionalData for a verse triple) or an
expand/collapse toggle (expandSelectedNode with its fetch outcome and
Math.random() draws). -/
inductive MergeOp where
  | load : String → Nat → Nat → MergeOp
  | expand : BibleNode → Option (List GraphData) → (Nat → ℝ) → MergeOp

/-- Apply one merge operation. -/
noncomputable def applyOp (remote : Remote) (st : GraphState) : MergeOp → GraphState
  | MergeOp.load b c v => (loadAdditionalData remote st b c v).st
  | MergeOp.expand sel fetch rand => expandSelectedNode st sel fetch rand

/-- Run a sequence of merge operations left to right. -/
noncomputable def runOps (remote : Remote) : List MergeOp → GraphState → GraphState
  | [], st => st
  | op :: rest, st => runOps remote rest (applyOp remote st op)

/-- Side condition under which a merge operation respects key uniqueness: a
neighborhood load must request a verse that is not already resident (this is
how the component calls it — the callers check verseExistsInGraph first);
expansions are unrestricted. -/
def LoadOk (st : GraphState) : MergeOp → Prop
  | MergeOp.load b c v => verseKey b c v ∉ nodeIds st
  | MergeOp.expand _ _ _ => True

/-- Every operation of the sequence satisfies its side condition in the
state in which it runs. -/
def OkSeq (remote : Remote) : List MergeOp → GraphState → Prop
  | [], _ => True
  | op :: rest, st => LoadOk st op ∧ OkSeq remote rest (applyOp remote st op)

theorem runOps_unique (remote : Remote) (ops : List MergeOp) :
    ∀ st : GraphState, OkSeq remote ops st → NodesUnique st → EdgesUnique st →
      NodesUnique (runOps remote ops st) ∧ EdgesUnique (runOps remote ops st) := by
  induction ops with
  | nil => intro st _ hn he; exact ⟨hn, he⟩
  | cons op rest ih =>
    intro st hok hn he
    obtain ⟨hop, hrest⟩ := hok
    have hstep : NodesUnique (applyOp remote st op) ∧ EdgesUnique (applyOp remote st op) := by
      cases op with
      | load b c v => exact load_preserves_unique remote st b c v hop hn he
      | expand sel fetch rand => exact expand_preserves_unique st sel fetch rand hn he
    exact ih (applyOp remote st op) hrest hstep.1 hstep.2

/-- C1 counterexample: starting from the initial load of one relationship
(nodes A-1-1 and B-2-2), a loadAdditionalData call for the already-resident
verse A 1:1 whose fetch returns one relationship not mentioning A 1:1
appends the standalone fallback node for A 1:1 a second time — the canonical
key A-1-1 then occurs twice in the node list, violating the claimed
invariant. -/
theorem c1_counterexample :
    ¬ NodesUnique (runOps relCCRemote [MergeOp.load ("A") 1 1] (initialState [relAB])) ∧
    (nodeIds (runOps relCCRemote [MergeOp.load ("A") 1 1]
      (initialState [relAB]))).count ("A-1-1") = 2 := by
  constructor
  · intro h
    have h2 : (nodeIds (runOps relCCRemote [MergeOp.load ("A") 1 1]
        (initialState [relAB]))).Nodup := h
    revert h2
    decide
  · decide

/-- C1 amended: for every sequence of merge operations (after an initial
load) in which each neighborhood load requests a verse that is not yet
resident when the load runs (the LoadOk side condition — without it the
standalone-node fallback of loadAdditionalData can duplicate a resident
key, see the counterexample), the resulting node list contains no two nodes
with the same canonical key, and the resulting edge list contains no two
edges with the same canonical sorted-endpoint key; edge-key uniqueness in
fact needs no side condition, as every edge insert path checks both the
resident and the in-batch edges. -/
theorem c1_unique_keys (remote : Remote) (data : List GraphData) (ops : List MergeOp)
    (hok : OkSeq remote ops (initialState data)) :
    NodesUnique (runOps remote ops (initialState data)) ∧
    EdgesUnique (runOps remote ops (initialState data)) :=
  runOps_unique remote ops (initialState data) hok (initial_unique data).1
    (initial_unique data).2

/-- Witness for C1 at a concrete two-operation run: a load of a new verse
followed by an expansion. -/
theorem c1_unique_keys_witness :
    NodesUnique (runOps oneRelRemote
      [MergeOp.load ("C") 1 1, MergeOp.expand nodeA (some [relAB]) zeroRand]
      (initialState [relAB])) ∧
    EdgesUnique (runOps oneRelRemote
      [MergeOp.load ("C") 1 1, MergeOp.expand nodeA (some [relAB]) zeroRand]
      (initialState [relAB])) :=
  c1_unique_keys oneRelRemote [relAB]
    [MergeOp.load ("C") 1 1, MergeOp.expand nodeA (some [relAB]) zeroRand]
    ⟨by show verseKey ("C") 1 1 ∉ nodeIds (initialState [relAB]); decide, trivial, trivial⟩

/-! ## Claim C3: the circular layout around a fresh center -/

/-- Evaluation of the layout at the claimed configuration: center (0,0),
4 new neighbors, no pre-existing nodes.  The default spacing 250 applies,
the base radius is min(250 × 0.8, 300) = 200, the scaling factor is
sqrt(4/4) = 1, so the radius is 200 — not 250 — and the angle step is
2π/4 = π/2. -/
theorem calculateOptimalLayout_four (rand : Nat → ℝ) :
    calculateOptimalLayout (0, 0) 4 [] rand =
      (List.range 4).map (fun (i : Nat) =>
        (Real.cos ((i : ℝ) * (Real.pi / 2)) * (200 * (0.9 + rand i * 0.2)),
         Real.sin ((i : ℝ) * (Real.pi / 2)) * (200 * (0.9 + rand i * 0.2)))) := by
  simp only [calculateOptimalLayout, List.length_nil]
  have h1 : ¬ ((1 : Nat) < 0) := by decide
  rw [if_neg h1]
  have hb : min ((250 : ℝ) * 0.8) 300 = 200 := by norm_num
  rw [hb]
  have hsq : Real.sqrt (((4 : Nat) : ℝ) / 4) = 1 := by norm_num
  rw [hsq]
  have hrad : max (200 : ℝ) (min ((200 : ℝ) * 1) 400) = 200 := by norm_num
  rw [hrad]
  have hstep : 2 * Real.pi / ((4 : Nat) : ℝ) = Real.pi / 2 := by
    push_cast
    ring
  rw [hstep]
  refine List.map_congr_left ?_
  intro i _
  simp only [Prod.mk.injEq]
  constructor <;> ring

/-- C3 counterexample: with the jitter draw fixed at 0, the first computed
position is (180, 0), whose distance from the center is 180 = 200 × 0.9 —
there is no jitter factor r in [0.9, 1.1] with 180 = 250 × r, so the claimed
radius 250 × r is wrong (the radius is 200 × r). -/
theorem c3_counterexample :
    (calculateOptimalLayout (0, 0) 4 [] (fun _ => 0)).get? 0 = some (180, 0) ∧
    ¬ ∃ r : ℝ, 0.9 ≤ r ∧ r ≤ 1.1 ∧
      (180 : ℝ) ^ 2 + (0 : ℝ) ^ 2 = (250 * r) ^ 2 := by
  constructor
  · rw [calculateOptimalLayout_four]
    norm_num [Real.cos_zero, Real.sin_zero]
  · rintro ⟨r, hr1, _, heq⟩
    nlinarith [sq_nonneg (250 * r - 225)]

/-- C3 amended: with center (0,0), 4 new neighbors and no pre-existing
nodes, every computed position lies at distance 200 × r from the center
(200 = min(250 × 0.8, 300), the clamped default, not 250) for some jitter
factor r in [0.9, 1.1), at angles 0, π/2, π, 3π/2 respectively. -/
theorem c3_layout_radius (rand : Nat → ℝ) (hr : ∀ j, 0 ≤ rand j ∧ rand j < 1)
    (i : Nat) (hi : i < 4) :
    ∃ r : ℝ, 0.9 ≤ r ∧ r < 1.1 ∧
      (calculateOptimalLayout (0, 0) 4 [] rand).get? i =
        some (200 * r * Real.cos ((i : ℝ) * (Real.pi / 2)),
              200 * r * Real.sin ((i : ℝ) * (Real.pi / 2))) ∧
      (200 * r * Real.cos ((i : ℝ) * (Real.pi / 2))) ^ 2 +
        (200 * r * Real.sin ((i : ℝ) * (Real.pi / 2))) ^ 2 = (200 * r) ^ 2 := by
  refine ⟨0.9 + rand i * 0.2, ?_, ?_, ?_, ?_⟩
  · have := (hr i).1
    linarith
  · have := (hr i).2
    linarith
  · rw [calculateOptimalLayout_four, List.get?_map, List.get?_range hi]
    simp only [Option.map_some']
    refine congrArg some ?_
    simp only [Prod.mk.injEq]
    constructor <;> ring
  · have h := Real.cos_sq_add_sin_sq ((i : ℝ) * (Real.pi / 2))
    linear_combination ((200 : ℝ) * (0.9 + rand i * 0.2)) ^ 2 * h

/-- Witness for C3 amended at the zero jitter draw and the first
neighbor. -/
theorem c3_layout_radius_witness :
    ∃ r : ℝ, 0.9 ≤ r ∧ r < 1.1 ∧
      (calculateOptimalLayout (0, 0) 4 [] (fun _ => 0)).get? 0 =
        some (200 * r * Real.cos (((0 : Nat) : ℝ) * (Real.pi / 2)),
              200 * r * Real.sin (((0 : Nat) : ℝ) * (Real.pi / 2))) ∧
      (200 * r * Real.cos (((0 : Nat) : ℝ) * (Real.pi / 2))) ^ 2 +
        (200 * r * Real.sin (((0 : Nat) : ℝ) * (Real.pi / 2))) ^ 2 = (200 * r) ^ 2 :=
  c3_layout_radius (fun _ => 0) (fun _ => ⟨le_refl 0, by norm_num⟩) 0 (by norm_num)

/-! ## Claim C7: focus resolution (part_002 lines 820-823, 1072-1217)

The useEffect driven by selectedVerse is modelled as one sequential run
(isInitialized is assumed true; the userHasNavigated flag is set to false
before the run and read by nothing in this variant's loading path, so it is
not part of the embedded state).  The await delays between retries only
yield the event loop and are dropped. -/

/-- verseExistsInGraph: whether the verse's node is resident. -/
def verseExistsInGraph (st : GraphState) (book : String) (chapter verse : Nat) : Bool :=
  st.flowNodes.any (fun n => n.id = verseKey book chapter verse)

/-- Result of a focus attempt: next state, returned Bool, number of
viewport-centering animations run. -/
structure FocusResult where
  st : GraphState
  succ : Bool
  anims : Nat

/-- focusOnSelectedVerse (part_002 lines 1072-1097): center and record the
verse as last-focused when its node is resident and it differs from the
last-focused verse; otherwise do nothing and return false. -/
def focusOnSelectedVerse (st : GraphState) (verseId : String) : FocusResult :=
  if (st.flowNodes.find? (fun n => n.id = verseId)).isSome ∧
      st.lastFocusedVerseId ≠ some verseId then
    ⟨{ st with lastFocusedVerseId := some verseId }, true, 1⟩
  else ⟨st, false, 0⟩

/-- Result of a full resolution run: next state, success, number of network
fetches issued, number of centering animations run. -/
structure RunResult where
  st : GraphState
  succ : Bool
  fetches : Nat
  anims : Nat

/-- The while loop of loadVerseWithRetries (part_002 lines 1110-1133):
remaining is maxRetries - retries; on the first attempt the verse itself is
requested, on later attempts verse 1 of the same chapter. -/
noncomputable def retryLoop (remote : Remote) (book : String) (chapter verse : Nat)
    (verseId : String) : Nat → Nat → GraphState → RunResult
  | 0, _, st => ⟨st, false, 0, 0⟩
  | remaining + 1, r, st =>
    let searchVerse := if r = 0 then verse else 1
    let lr := loadAdditionalData remote st book chapter searchVerse
    if lr.found then
      let fr := focusOnSelectedVerse lr.st verseId
      if fr.succ then ⟨fr.st, true, lr.fetches, fr.anims⟩
      else
        let rest := retryLoop remote book chapter verse verseId remaining (r + 1) fr.st
        ⟨rest.st, rest.succ, lr.fetches + rest.fetches, fr.anims + rest.anims⟩
    else
      let rest := retryLoop remote book chapter verse verseId remaining (r + 1) lr.st
      ⟨rest.st, rest.succ, lr.fetches + rest.fetches, rest.anims⟩

/-- loadVerseWithRetries (part_002 lines 1100-1197): focus immediately when
resident; otherwise run the retry loop, try to focus once more in case the
node arrived late, and finally fall back to a direct single-verse fetch
that, when it succeeds and the node is still absent, synthesizes a
standalone node at the deterministic fallback position and focuses it. -/
noncomputable def loadVerseWithRetries (remote : Remote) (st : GraphState) (book : String)
    (chapter verse : Nat) (maxRetries : Nat) : RunResult :=
  let verseId := verseKey book chapter verse
  if verseExistsInGraph st book chapter verse then
    let fr := focusOnSelectedVerse st verseId
    ⟨fr.st, fr.succ, 0, fr.anims⟩
  else
    let loopRes := retryLoop remote book chapter verse verseId maxRetries 0 st
    let after1 :=
      if ¬ loopRes.succ ∧ verseExistsInGraph loopRes.st book chapter verse then
        let fr := focusOnSelectedVerse loopRes.st verseId
        (⟨fr.st, fr.succ, loopRes.fetches, loopRes.anims + fr.anims⟩ : RunResult)
      else loopRes
    if after1.succ then after1
    else
      if (remote.verseDetails book chapter verse).isSome then
        if ¬ verseExistsInGraph after1.st book chapter verse then
          let st2 := { after1.st with
            flowNodes := after1.st.flowNodes ++ [standaloneNode book chapter verse] }
          let fr := focusOnSelectedVerse st2 verseId
          ⟨fr.st, fr.succ, after1.fetches + 1, after1.anims + fr.anims⟩
        else ⟨after1.st, false, after1.fetches + 1, after1.anims⟩
      else ⟨after1.st, false, after1.fetches + 1, after1.anims⟩

/-- The selectedVerse effect (part_002 lines 1200-1217): repeat focusing on
the already-focused verse is prevented by the last-focused-key guard; a
differing key runs loadVerseWithRetries with the default bound of 2. -/
noncomputable def selectedVerseEffect (remote : Remote) (st : GraphState) (book : String)
    (chapter verse : Nat) : RunResult :=
  if st.lastFocusedVerseId = some (verseKey book chapter verse) then ⟨st, false, 0, 0⟩
  else loadVerseWithRetries remote st book chapter verse 2

theorem focusOn_succ_lastFocused (st : GraphState) (verseId : String)
    (h : (focusOnSelectedVerse st verseId).succ = true) :
    (focusOnSelectedVerse st verseId).st.lastFocusedVerseId = some verseId := by
  unfold focusOnSelectedVerse at h ⊢
  by_cases hc : (st.flowNodes.find? (fun n => n.id = verseId)).isSome ∧
      st.lastFocusedVerseId ≠ some verseId
  · rw [if_pos hc]
  · rw [if_neg hc] at h
    exact absurd h (by simp)

theorem retryLoop_succ_lastFocused (remote : Remote) (book : String) (chapter verse : Nat)
    (verseId : String) :
    ∀ (remaining r : Nat) (st : GraphState),
      (retryLoop remote book chapter verse verseId remaining r st).succ = true →
      (retryLoop remote book chapter verse verseId remaining r st).st.lastFocusedVerseId =
        some verseId := by
  intro remaining
  induction remaining with
  | zero =>
    intro r st h
    exact absurd h (by simp [retryLoop])
  | succ rem ih =>
    intro r st h
    unfold retryLoop at h ⊢
    by_cases hf : (loadAdditionalData remote st book chapter (if r = 0 then verse else 1)).found
        = true
    · rw [if_pos hf] at h ⊢
      by_cases hs : (focusOnSelectedVerse
          (loadAdditionalData remote st book chapter (if r = 0 then verse else 1)).st
          verseId).succ = true
      · rw [if_pos hs] at h ⊢
        exact focusOn_succ_lastFocused _ _ hs
      · rw [if_neg hs] at h ⊢
        exact ih _ _ h
    · rw [if_neg hf] at h ⊢
      exact ih _ _ h

theorem loadVerseWithRetries_succ_lastFocused (remote : Remote) (st : GraphState)
    (book : String) (chapter verse : Nat) (maxRetries : Nat)
    (h : (loadVerseWithRetries remote st book chapter verse maxRetries).succ = true) :
    (loadVerseWithRetries remote st book chapter verse maxRetries).st.lastFocusedVerseId =
      some (verseKey book chapter verse) := by
  simp only [loadVerseWithRetries] at h ⊢
  by_cases he : verseExistsInGraph st book chapter verse = true
  · rw [if_pos he] at h ⊢
    exact focusOn_succ_lastFocused _ _ h
  · rw [if_neg he] at h ⊢
    set loopRes := retryLoop remote book chapter verse (verseKey book chapter verse)
      maxRetries 0 st with hloop
    by_cases h1 : ¬ loopRes.succ = true ∧
        verseExistsInGraph loopRes.st book chapter verse = true
    · rw [if_pos h1] at h ⊢
      by_cases h2 : (focusOnSelectedVerse loopRes.st (verseKey book chapter verse)).succ = true
      · rw [if_pos h2] at h ⊢
        exact focusOn_succ_lastFocused _ _ h2
      · rw [if_neg h2] at h ⊢
        by_cases hv : (remote.verseDetails book chapter verse).isSome = true
        · rw [if_pos hv] at h ⊢
          by_cases h3 : ¬ verseExistsInGraph
              (focusOnSelectedVerse loopRes.st (verseKey book chapter verse)).st
              book chapter verse = true
          · rw [if_pos h3] at h ⊢
            exact focusOn_succ_lastFocused _ _ h
          · rw [if_neg h3] at h
            exact absurd h (by simp)
        · rw [if_neg hv] at h
          exact absurd h (by simp)
    · rw [if_neg h1] at h ⊢
      by_cases h2 : loopRes.succ = true
      · rw [if_pos h2] at h ⊢
        exact retryLoop_succ_lastFocused remote book chapter verse _ maxRetries 0 st h2
      · rw [if_neg h2] at h ⊢
        by_cases hv : (remote.verseDetails book chapter verse).isSome = true
        · rw [if_pos hv] at h ⊢
          by_cases h3 : ¬ verseExistsInGraph loopRes.st book chapter verse = true
          · rw [if_pos h3] at h ⊢
            exact focusOn_succ_lastFocused _ _ h
          · rw [if_neg h3] at h
            exact absurd h (by simp)
        · rw [if_neg hv] at h
          exact absurd h (by simp)

/-- C7 counterexample: against a remote holding no data for the verse, the
first effect run fails to focus (2 fetches: the neighborhood page and the
direct verse call) and does not record a last-focused key, so the second
effect run for the same verse — with no intervening state change — issues
another network fetch (the direct verse call is repeated; only the page
load is memoised), contradicting the claimed at-most-one fetch sequence. -/
theorem c7_counterexample :
    (selectedVerseEffect emptyRemote emptyState ("G") 1 1).succ = false ∧
    (selectedVerseEffect emptyRemote emptyState ("G") 1 1).fetches = 2 ∧
    (selectedVerseEffect emptyRemote
      (selectedVerseEffect emptyRemote emptyState ("G") 1 1).st ("G") 1 1).fetches = 1 := by
  exact ⟨rfl, rfl, rfl⟩

/-- The last-focused guard of the selectedVerse effect: a run for the verse
recorded as last-focused returns immediately with no fetch and no
animation. -/
theorem selectedVerseEffect_guard (remote : Remote) (st : GraphState) (book : String)
    (chapter verse : Nat)
    (h : st.lastFocusedVerseId = some (verseKey book chapter verse)) :
    selectedVerseEffect remote st book chapter verse = ⟨st, false, 0, 0⟩ := by
  unfold selectedVerseEffect
  rw [if_pos h]

/-- C7 amended: when the first effect run for a verse key succeeds in
focusing it, the last-focused guard makes the second run for the same key
with no intervening state change a complete no-op: the state is returned
unchanged and zero network fetches and zero centering animations are
issued.  (When the first run fails to focus - the verse is nowhere to be
found - the guard does not engage and the direct verse fetch is reissued:
see the counterexample.) -/
theorem c7_focus_idempotent (remote : Remote) (st : GraphState) (book : String)
    (chapter verse : Nat)
    (h : (selectedVerseEffect remote st book chapter verse).succ = true) :
    selectedVerseEffect remote (selectedVerseEffect remote st book chapter verse).st
      book chapter verse =
      ⟨(selectedVerseEffect remote st book chapter verse).st, false, 0, 0⟩ := by
  have hlast : (selectedVerseEffect remote st book chapter verse).st.lastFocusedVerseId =
      some (verseKey book chapter verse) := by
    unfold selectedVerseEffect at h ⊢
    by_cases hg : st.lastFocusedVerseId = some (verseKey book chapter verse)
    · rw [if_pos hg] at h
      exact absurd h (by simp)
    · rw [if_neg hg] at h ⊢
      exact loadVerseWithRetries_succ_lastFocused remote st book chapter verse 2 h
  exact selectedVerseEffect_guard remote _ book chapter verse hlast

/-- A cross-reference from G 1:1 to G 1:2. -/
def relGG : GraphData := ⟨("G"), 1, 1, ("G"), 1, 2⟩

/-- A remote that answers the neighborhood fetch with relGG and the direct
verse fetch successfully. -/
def foundRemote : Remote := ⟨fun _ _ _ => some [relGG], fun _ _ _ => some ()⟩

/-- Witness for C7 amended: a concrete first run that succeeds, after which
the repeat run is the guarded no-op. -/
theorem c7_focus_idempotent_witness :
    selectedVerseEffect foundRemote (selectedVerseEffect foundRemote emptyState ("G") 1 1).st
      ("G") 1 1 =
      ⟨(selectedVerseEffect foundRemote emptyState ("G") 1 1).st, false, 0, 0⟩ :=
  c7_focus_idempotent foundRemote emptyState ("G") 1 1 rfl

end BibleGraphSpec
